import Mathlib

/-!
Shallow embedding of the yjs-frontend collaborative-editor client
(`src/supabase.sql`: the Supabase schema with the `join_room_by_key` RPC
together with the React `App` component) and proofs about its room
directory, URL synchronizer, presence colors and session lifecycle.

Strings are modelled as `List Char`, one entry per UTF-16 code unit of the
JavaScript string; every string the claims exercise lies in the Basic
Multilingual Plane, where code units and code points coincide.
-/

/-- Converts a Lean string literal into the `List Char` string model. -/
def jstr (s : String) : List Char := s.data

/-- The JavaScript whitespace set stripped by `String.prototype.trim`: the
WhiteSpace and LineTerminator code points. -/
def jsIsWhitespace (c : Char) : Bool :=
  c.toNat = 0x09 || c.toNat = 0x0A || c.toNat = 0x0B || c.toNat = 0x0C ||
  c.toNat = 0x0D || c.toNat = 0x20 || c.toNat = 0xA0 || c.toNat = 0x1680 ||
  (0x2000 ≤ c.toNat && c.toNat ≤ 0x200A) || c.toNat = 0x2028 ||
  c.toNat = 0x2029 || c.toNat = 0x202F || c.toNat = 0x205F ||
  c.toNat = 0x3000 || c.toNat = 0xFEFF

/-- `String.prototype.toUpperCase` on one code unit, restricted to the
ASCII case mapping, the only one this application exercises: room keys and
their letter-case variants are ASCII digits and letters. -/
def jsToUpper (c : Char) : Char :=
  if 0x61 ≤ c.toNat && c.toNat ≤ 0x7A then Char.ofNat (c.toNat - 32) else c

/-- `String.prototype.toUpperCase`. -/
def jsToUpperCase (s : List Char) : List Char := s.map jsToUpper

/-- `String.prototype.trim`: drop leading and trailing whitespace. -/
def jsTrim (s : List Char) : List Char :=
  ((s.dropWhile jsIsWhitespace).reverse.dropWhile jsIsWhitespace).reverse

/-- Truncation of an integer to a signed 32-bit value, as performed by the
JavaScript `| 0` operation and by the 32-bit `<<` shift. -/
def int32 (x : Int) : Int := (x + 2 ^ 31) % 2 ^ 32 - 2 ^ 31

/-- One iteration of the `pickColor` loop:
`hash = (hash << 5) - hash + value.charCodeAt(i); hash |= 0`. -/
def hashStep (h : Int) (code : Nat) : Int := int32 (int32 (h * 32) - h + code)

/-- The rolling hash computed by the `pickColor` loop, starting from 0. -/
def jsHash (s : List Char) : Int := s.foldl (fun h c => hashStep h c.toNat) 0

/-- The fixed five-color palette `userColors`. -/
def userColors : List (List Char) :=
  [jstr "#2b6cb0", jstr "#2f855a", jstr "#b83280", jstr "#c05621", jstr "#6b46c1"]

/-- `pickColor`: hash the display name and index the palette with
`Math.abs(hash) % userColors.length`; the index is always in bounds, so
the `getD` default is never reached. -/
def pickColor (s : List Char) : List Char :=
  userColors.getD ((jsHash s).natAbs % userColors.length) []

/-- Modelled from the spec, as the reference side of the refinement stated
by claim C5: the 32-bit rolling hash `hash = hash * 31 + charCode`,
wrapping on overflow. -/
def specHash (s : List Char) : Int :=
  s.foldl (fun h c => int32 (h * 31 + c.toNat)) 0

/-- Modelled from the spec: the absolute value of the reference hash taken
modulo the fixed palette of 5 colors. -/
def pickColorSpec (s : List Char) : List Char :=
  userColors.getD ((specHash s).natAbs % userColors.length) []

/-- `(value % 36).toString(36)`: one lowercase base-36 digit. -/
def base36Char (n : Nat) : Char :=
  if n < 10 then Char.ofNat (0x30 + n) else Char.ofNat (0x61 + (n - 10))

/-- `generateRoomKey`, parameterized by the six random bytes drawn from
`crypto.getRandomValues` (or the `Math.random` fallback): map each byte to
a base-36 digit, join, and uppercase. -/
def generateRoomKey (bytes : List Nat) : List Char :=
  jsToUpperCase (bytes.map (fun b => base36Char (b % 36)))

/-- Membership in the uppercase base-36 alphabet 0-9, A-Z. -/
def isUpperBase36 (c : Char) : Bool :=
  (0x30 ≤ c.toNat && c.toNat ≤ 0x39) || (0x41 ≤ c.toNat && c.toNat ≤ 0x5A)

/-- Query parameters of an address: a list of (name, value) pairs. -/
abbrev QueryParams := List (List Char × List Char)

/-- `URLSearchParams.get`: the value of the first parameter with the given
name, or null (`none`). -/
def getParam (ps : QueryParams) (k : List Char) : Option (List Char) :=
  (ps.find? (fun p => p.1 == k)).map (fun p => p.2)

/-- `URLSearchParams.delete`: remove every parameter with the given name. -/
def deleteParam (ps : QueryParams) (k : List Char) : QueryParams :=
  ps.filter (fun p => !(p.1 == k))

/-- `URLSearchParams.set`: overwrite the value of the first parameter with
the given name and drop its other occurrences, or append when absent. -/
def setParam : QueryParams → List Char → List Char → QueryParams
  | [], k, v => [(k, v)]
  | p :: rest, k, v =>
      if p.1 == k then (k, v) :: deleteParam rest k else p :: setParam rest k v

/-- An address: the part outside the query string plus the query
parameters. -/
structure Url where
  base : List Char
  params : QueryParams
deriving DecidableEq

/-- `updateRoomInUrl`, effect on the current address: set (or, for an
empty room id, delete) `room`, then delete the legacy `doc` parameter and
any `invite` parameter. -/
def updateRoomInUrl (roomId : List Char) (u : Url) : Url :=
  { u with
    params :=
      deleteParam
        (deleteParam
          (if roomId = [] then deleteParam u.params (jstr "room")
           else setParam u.params (jstr "room") roomId)
          (jstr "doc"))
        (jstr "invite") }

/-- The browser history: the current address and the number of navigable
entries. -/
structure BrowserHistory where
  current : Url
  entryCount : Nat
deriving DecidableEq

/-- `history.replaceState`: swap the current address without adding a
navigable entry. -/
def replaceState (u : Url) (h : BrowserHistory) : BrowserHistory :=
  { current := u, entryCount := h.entryCount }

/-- `updateRoomInUrl` as the full `window.history` effect. -/
def updateRoomInUrlHistory (roomId : List Char) (h : BrowserHistory) : BrowserHistory :=
  replaceState (updateRoomInUrl roomId h.current) h

/-- A row of `public.rooms`. -/
structure RoomRow where
  id : List Char
  key : List Char
  owner_id : List Char
deriving DecidableEq

/-- A row of `public.room_members`; the primary key is
`(room_id, user_id)`. -/
structure MemberRow where
  room_id : List Char
  user_id : List Char
  role : List Char
deriving DecidableEq

/-- The relational state: the two tables. -/
structure DBState where
  rooms : List RoomRow
  members : List MemberRow
deriving DecidableEq

/-- `select id into v_room_id from public.rooms where key = p_key` under
the unique index on `key`: the first matching row. -/
def lookupRoomId (rooms : List RoomRow) (p_key : List Char) : Option (List Char) :=
  (rooms.find? (fun r => r.key == p_key)).map (fun r => r.id)

/-- Whether a membership row with the given primary key exists. -/
def memberExists (ms : List MemberRow) (rid uid : List Char) : Bool :=
  ms.any (fun m => m.room_id == rid && m.user_id == uid)

/-- `insert into public.room_members ... on conflict do nothing`, which is
also the observable behavior of the client-side upsert on the same key:
append the row unless the primary key is already present. -/
def insertMember (ms : List MemberRow) (rid uid : List Char) : List MemberRow :=
  if memberExists ms rid uid then ms else ms ++ [⟨rid, uid, jstr "editor"⟩]

/-- Failures raised by the join RPC. -/
inductive JoinError
  | roomNotFound
deriving DecidableEq

/-- The security-definer RPC `public.join_room_by_key`: look the key up,
raise `room-not-found` when no room matches, otherwise idempotently insert
a membership row for the caller and return the room id. -/
def join_room_by_key (db : DBState) (uid p_key : List Char) :
    Except JoinError (List Char) × DBState :=
  match lookupRoomId db.rooms p_key with
  | none => (Except.error JoinError.roomNotFound, db)
  | some rid => (Except.ok rid, { db with members := insertMember db.members rid uid })

/-- The database effect of `handleCreateRoom`: insert the room row, which
fails on a `key` uniqueness conflict, then idempotently insert the owner
membership row. `freshId` is the server-assigned id. -/
def createRoomDb (db : DBState) (key freshId uid : List Char) :
    Except Unit (List Char) × DBState :=
  if db.rooms.any (fun r => r.key == key) then (Except.error (), db)
  else
    (Except.ok freshId,
      { rooms := db.rooms ++ [⟨freshId, key, uid⟩],
        members := insertMember db.members freshId uid })

/-- The React state of `App` touched by the room directory and the URL
synchronizer, together with the backing database and the current address. -/
structure AppState where
  db : DBState
  roomId : List Char
  roomKeyInput : List Char
  inviteInput : List Char
  inviteKey : List Char
  roomError : List Char
  roomLoading : Bool
  url : Url
deriving DecidableEq

/-- `joinRoomByKey` in `App`: require a session, normalize the key by
trimming and uppercasing, reject an empty key, call the privileged RPC,
and on success select the room, clear the inputs and the stored invite
key, and rewrite the address. -/
def joinRoomByKey (session : Option (List Char)) (keyValue : List Char)
    (st : AppState) : AppState :=
  match session with
  | none => st
  | some uid =>
      if jsToUpperCase (jsTrim keyValue) = [] then
        { st with roomError := jstr "Enter a room key" }
      else
        match join_room_by_key st.db uid (jsToUpperCase (jsTrim keyValue)) with
        | (Except.error _, db2) =>
            { st with
              db := db2,
              roomError := jstr "room-not-found",
              roomLoading := false }
        | (Except.ok rid, db2) =>
            { st with
              db := db2,
              roomError := [],
              roomId := rid,
              roomKeyInput := [],
              inviteInput := [],
              inviteKey := [],
              url := updateRoomInUrl rid st.url,
              roomLoading := false }

/-- `handleCreateRoom`: require a session, generate a key from the given
random bytes, insert the room and the owner membership, and on success
select the room, clear the stored invite key and rewrite the address. -/
def handleCreateRoom (session : Option (List Char)) (bytes : List Nat)
    (freshId : List Char) (st : AppState) : AppState :=
  match session with
  | none => st
  | some uid =>
      match createRoomDb st.db (generateRoomKey bytes) freshId uid with
      | (Except.error _, db2) =>
          { st with
            db := db2,
            roomError := jstr "Failed to create room",
            roomLoading := false }
      | (Except.ok rid, db2) =>
          { st with
            db := db2,
            roomError := [],
            roomId := rid,
            inviteKey := [],
            url := updateRoomInUrl rid st.url,
            roomLoading := false }

/-- The key value `handleJoinByInvite` derives from the trimmed input: the
`invite` query value when the text parses as a URL carrying a non-empty
one (`url.searchParams.get(..) || trimmed`), otherwise the trimmed text.
The WHATWG URL parser is a browser API outside this repository, so it is
taken as a parameter. -/
def inviteKeyValue (parseUrl : List Char → Option Url) (trimmed : List Char) :
    List Char :=
  match parseUrl trimmed with
  | some u =>
      match getParam u.params (jstr "invite") with
      | some v => if v = [] then trimmed else v
      | none => trimmed
  | none => trimmed

/-- `handleJoinByInvite`: reject blank input, otherwise derive the key
from the input and delegate to `joinRoomByKey`. -/
def handleJoinByInvite (parseUrl : List Char → Option Url)
    (session : Option (List Char)) (st : AppState) : AppState :=
  if jsTrim st.inviteInput = [] then
    { st with roomError := jstr "Enter an invite link or key" }
  else joinRoomByKey session (inviteKeyValue parseUrl (jsTrim st.inviteInput)) st

/-- The key that `handleJoinByInvite` passes to `joinRoomByKey`; `none`
when no delegation happens. -/
def handleJoinByInviteKeySent (parseUrl : List Char → Option Url)
    (inviteInput : List Char) : Option (List Char) :=
  if jsTrim inviteInput = [] then none
  else some (inviteKeyValue parseUrl (jsTrim inviteInput))

/-- The invite auto-join effect: when an invite key is stored and a
principal is authenticated, call `joinRoomByKey` with the stored key. -/
def inviteAutoJoinEffect (session : Option (List Char)) (st : AppState) : AppState :=
  if st.inviteKey = [] then st
  else
    match session with
    | none => st
    | some _ => joinRoomByKey session st.inviteKey st

/-- A presence descriptor: display name and color. -/
structure UserInfo where
  name : List Char
  color : List Char
deriving DecidableEq

/-- The UI state owned by the session effect. -/
structure UiState where
  status : List Char
  users : List UserInfo
deriving DecidableEq

/-- The transport connection opened by the provider memo. -/
structure ProviderConn where
  room : List Char
  token : List Char
deriving DecidableEq

/-- The provider memo: null unless both a non-empty token and a selected
room id are present. -/
def mkProvider (token roomId : List Char) : Option ProviderConn :=
  if token = [] || roomId = [] then none
  else some { room := roomId, token := token }

/-- The status listener registered by the session effect. -/
inductive StatusHandlerTag
  | handleStatus
deriving DecidableEq

/-- The awareness listener registered by the session effect. -/
inductive AwarenessHandlerTag
  | handleAwareness
deriving DecidableEq

/-- A live session: the transport handle, the published awareness states,
each carrying an optional user descriptor, the registered listeners, and
the destroyed flag. -/
structure LiveSession where
  provider : ProviderConn
  awareness : List (Option UserInfo)
  statusHandlers : List StatusHandlerTag
  awarenessHandlers : List AwarenessHandlerTag
  destroyed : Bool
deriving DecidableEq

/-- `handleStatus`: `(event) => setStatus(event.status)`. -/
def runStatusHandler : StatusHandlerTag → List Char → UiState → UiState
  | StatusHandlerTag.handleStatus, ev, ui => { ui with status := ev }

/-- `handleAwareness`: recompute the user list from the awareness states,
keeping the states that published a user descriptor. -/
def runAwarenessHandler : AwarenessHandlerTag → List (Option UserInfo) → UiState → UiState
  | AwarenessHandlerTag.handleAwareness, states, ui => { ui with users := states.filterMap id }

/-- Deliver a transport status event to every registered status listener. -/
def deliverStatus (sess : LiveSession) (ev : List Char) (ui : UiState) : UiState :=
  sess.statusHandlers.foldl (fun u t => runStatusHandler t ev u) ui

/-- Deliver an awareness change to every registered awareness listener. -/
def deliverAwareness (sess : LiveSession) (states : List (Option UserInfo))
    (ui : UiState) : UiState :=
  sess.awarenessHandlers.foldl (fun u t => runAwarenessHandler t states u) ui

/-- Session setup by the effect: register the two listeners and publish
the local user descriptor on the awareness channel. -/
def setupSession (p : ProviderConn) (localUser : UserInfo) : LiveSession :=
  { provider := p, awareness := [some localUser],
    statusHandlers := [StatusHandlerTag.handleStatus],
    awarenessHandlers := [AwarenessHandlerTag.handleAwareness],
    destroyed := false }

/-- The effect cleanup: `awareness.off`, `off`, `provider.destroy()`. -/
def teardownSession (sess : LiveSession) : LiveSession :=
  { sess with
    awarenessHandlers := sess.awarenessHandlers.erase AwarenessHandlerTag.handleAwareness,
    statusHandlers := sess.statusHandlers.erase StatusHandlerTag.handleStatus,
    destroyed := true }

/-- The body of the session effect: with no provider, report
`disconnected` and clear the user list; with a provider, report
`connecting`, set the session up and run the initial awareness
recomputation. -/
def sessionEffectInit (provider : Option ProviderConn) (localUser : UserInfo)
    (ui : UiState) : UiState × Option LiveSession :=
  match provider with
  | none => ({ status := jstr "disconnected", users := [] }, none)
  | some p =>
      let sess := setupSession p localUser
      (runAwarenessHandler AwarenessHandlerTag.handleAwareness sess.awareness
        { ui with status := jstr "connecting" }, some sess)

/-- A room-directory operation as it acts on the database:
`handleCreateRoom` with its random bytes, server-assigned id and acting
user, or `joinRoomByKey` with its raw key input. -/
inductive DirOp
  | create (bytes : List Nat) (freshId uid : List Char)
  | joinByKey (uid rawKey : List Char)

/-- The database effect of one directory operation. -/
def applyDirOp (db : DBState) : DirOp → DBState
  | DirOp.create bytes freshId uid =>
      (createRoomDb db (generateRoomKey bytes) freshId uid).2
  | DirOp.joinByKey uid rawKey =>
      if jsToUpperCase (jsTrim rawKey) = [] then db
      else (join_room_by_key db uid (jsToUpperCase (jsTrim rawKey))).2

/-- At most one membership row per (room, user) pair. -/
def membersUnique (ms : List MemberRow) : Prop :=
  (ms.map (fun m => (m.room_id, m.user_id))).Nodup

/-! ### Helper lemmas on the string primitives and the hash -/

lemma hashStep_eq_spec (h : Int) (c : Nat) : hashStep h c = int32 (h * 31 + c) := by
  unfold hashStep int32
  have h31 : (2 : Int) ^ 31 = 2147483648 := by norm_num
  have h32 : (2 : Int) ^ 32 = 4294967296 := by norm_num
  rw [h31, h32]
  omega

lemma foldl_hashStep_eq (s : List Char) :
    ∀ h : Int, s.foldl (fun h c => hashStep h c.toNat) h
      = s.foldl (fun h c => int32 (h * 31 + c.toNat)) h := by
  induction s with
  | nil => intro h; rfl
  | cons c t ih => intro h; simp only [List.foldl_cons, hashStep_eq_spec, ih]

lemma jsHash_eq_specHash (s : List Char) : jsHash s = specHash s :=
  foldl_hashStep_eq s 0

lemma base36_char_facts : ∀ m : Fin 36,
    jsIsWhitespace (jsToUpper (base36Char m.val)) = false
    ∧ jsToUpper (jsToUpper (base36Char m.val)) = jsToUpper (base36Char m.val)
    ∧ isUpperBase36 (jsToUpper (base36Char m.val)) = true := by decide

lemma generateRoomKey_char_facts {bytes : List Nat} {c : Char}
    (hc : c ∈ generateRoomKey bytes) :
    jsIsWhitespace c = false ∧ jsToUpper c = c ∧ isUpperBase36 c = true := by
  unfold generateRoomKey jsToUpperCase at hc
  rw [List.map_map, List.mem_map] at hc
  obtain ⟨b, _, rfl⟩ := hc
  exact base36_char_facts ⟨b % 36, Nat.mod_lt b (by norm_num)⟩

lemma ws_jsToUpper_fixed {c : Char} (h : jsIsWhitespace c = true) : jsToUpper c = c := by
  have hn : ¬(0x61 ≤ c.toNat ∧ c.toNat ≤ 0x7A) := by
    simp only [jsIsWhitespace, Bool.or_eq_true, Bool.and_eq_true, decide_eq_true_eq] at h
    omega
  have hb : (0x61 ≤ c.toNat && c.toNat ≤ 0x7A) = false := by
    rw [Bool.eq_false_iff]
    intro hcond
    rw [Bool.and_eq_true, decide_eq_true_eq, decide_eq_true_eq] at hcond
    exact hn hcond
  unfold jsToUpper
  rw [hb]
  simp

lemma upper_variant_not_ws {v K : List Char}
    (hK : ∀ c ∈ K, jsIsWhitespace c = false)
    (hv : jsToUpperCase v = K) : ∀ c ∈ v, jsIsWhitespace c = false := by
  intro c hc
  cases hws : jsIsWhitespace c with
  | false => rfl
  | true =>
    exfalso
    have hmem : jsToUpper c ∈ K := by
      rw [← hv]
      exact List.mem_map_of_mem jsToUpper hc
    rw [ws_jsToUpper_fixed hws] at hmem
    rw [hK c hmem] at hws
    exact Bool.false_ne_true hws

lemma dropWhile_eq_self_of_false {α : Type} {p : α → Bool} {l : List α}
    (h : ∀ a ∈ l, p a = false) : l.dropWhile p = l := by
  cases l with
  | nil => rfl
  | cons a t =>
    rw [List.dropWhile_cons, h a (List.mem_cons_self a t)]
    simp

lemma dropWhile_append_of_true {α : Type} {p : α → Bool} {l1 : List α} (l2 : List α)
    (h : ∀ a ∈ l1, p a = true) : (l1 ++ l2).dropWhile p = l2.dropWhile p := by
  induction l1 with
  | nil => rfl
  | cons a t ih =>
    rw [List.cons_append, List.dropWhile_cons, h a (List.mem_cons_self a t)]
    simp only [if_true]
    exact ih (fun x hx => h x (List.mem_cons_of_mem a hx))

lemma jsTrim_eq_self {l : List Char} (h : ∀ c ∈ l, jsIsWhitespace c = false) :
    jsTrim l = l := by
  unfold jsTrim
  rw [dropWhile_eq_self_of_false h,
      dropWhile_eq_self_of_false (fun c hc => h c (List.mem_reverse.1 hc)),
      List.reverse_reverse]

lemma jsTrim_sandwich {ws1 ws2 v : List Char}
    (h1 : ∀ c ∈ ws1, jsIsWhitespace c = true)
    (h2 : ∀ c ∈ ws2, jsIsWhitespace c = true)
    (hv : ∀ c ∈ v, jsIsWhitespace c = false)
    (hne : v ≠ []) : jsTrim (ws1 ++ v ++ ws2) = v := by
  have hfront : (ws1 ++ v ++ ws2).dropWhile jsIsWhitespace = v ++ ws2 := by
    rw [List.append_assoc, dropWhile_append_of_true _ h1]
    cases v with
    | nil => exact absurd rfl hne
    | cons c t =>
      rw [List.cons_append, List.dropWhile_cons, hv c (List.mem_cons_self c t)]
      simp
  unfold jsTrim
  rw [hfront, List.reverse_append,
      dropWhile_append_of_true _ (fun c hc => h2 c (List.mem_reverse.1 hc)),
      dropWhile_eq_self_of_false (fun c hc => hv c (List.mem_reverse.1 hc)),
      List.reverse_reverse]

/-! ### Helper lemmas on query parameters -/

lemma find?_none_of_any_false {α : Type} (p : α → Bool) (l : List α)
    (h : l.any p = false) : l.find? p = none := by
  rw [List.find?_eq_none]
  intro x hx hpx
  have hany : l.any p = true := List.any_eq_true.2 ⟨x, hx, hpx⟩
  rw [h] at hany
  exact Bool.false_ne_true hany

lemma getParam_deleteParam_self (ps : QueryParams) (k : List Char) :
    getParam (deleteParam ps k) k = none := by
  unfold getParam
  have h : (deleteParam ps k).find? (fun p => p.1 == k) = none := by
    rw [List.find?_eq_none]
    intro x hx
    rw [deleteParam, List.mem_filter] at hx
    simpa using hx.2
  rw [h]
  rfl

lemma getParam_deleteParam_other (ps : QueryParams) (k k' : List Char)
    (hne : k' ≠ k) : getParam (deleteParam ps k) k' = getParam ps k' := by
  induction ps with
  | nil => rfl
  | cons p rest ih =>
    by_cases hpk : p.1 = k
    · have h1 : (!(p.1 == k)) = false := by simp [hpk]
      have h2 : (p.1 == k') = false := by
        rw [hpk]
        simp
        exact fun he => hne he.symm
      unfold getParam deleteParam at ih ⊢
      rw [List.filter_cons, h1]
      simp only [Bool.false_eq_true, if_false]
      rw [← List.find?_cons_of_neg rest (p := fun q => q.1 == k') (a := p) (by simp [h2])] at ih
      rw [List.find?_cons_of_neg rest (by simp [h2])]
      rw [List.find?_cons_of_neg rest (by simp [h2])] at ih
      exact ih
    · have h1 : (!(p.1 == k)) = true := by simp [hpk]
      unfold getParam deleteParam at ih ⊢
      rw [List.filter_cons, h1]
      simp only [if_true]
      by_cases hpk' : p.1 = k'
      · rw [List.find?_cons_of_pos _ (by simp [hpk']),
            List.find?_cons_of_pos _ (by simp [hpk'])]
      · rw [List.find?_cons_of_neg _ (by simp [hpk']),
            List.find?_cons_of_neg _ (by simp [hpk'])]
        exact ih

lemma filter_deleteParam_self (ps : QueryParams) (k : List Char) :
    (deleteParam ps k).filter (fun p => p.1 == k) = [] := by
  induction ps with
  | nil => rfl
  | cons p rest ih =>
    unfold deleteParam at ih ⊢
    rw [List.filter_cons]
    by_cases hpk : p.1 = k
    · rw [show (!(p.1 == k)) = false by simp [hpk]]
      simp only [Bool.false_eq_true, if_false]
      exact ih
    · rw [show (!(p.1 == k)) = true by simp [hpk]]
      simp only [if_true]
      rw [List.filter_cons, show (p.1 == k) = false by simp [hpk]]
      simp only [Bool.false_eq_true, if_false]
      exact ih

lemma filter_deleteParam_other (ps : QueryParams) (k k' : List Char)
    (hne : k' ≠ k) :
    (deleteParam ps k).filter (fun p => p.1 == k')
      = ps.filter (fun p => p.1 == k') := by
  induction ps with
  | nil => rfl
  | cons p rest ih =>
    unfold deleteParam at ih ⊢
    by_cases hpk : p.1 = k
    · have h2 : (p.1 == k') = false := by
        rw [hpk]
        simp
        exact fun he => hne he.symm
      rw [List.filter_cons, show (!(p.1 == k)) = false by simp [hpk]]
      simp only [Bool.false_eq_true, if_false]
      conv_rhs => rw [List.filter_cons]
      rw [h2]
      simp only [Bool.false_eq_true, if_false]
      exact ih
    · rw [List.filter_cons, show (!(p.1 == k)) = true by simp [hpk]]
      simp only [if_true]
      rw [List.filter_cons, List.filter_cons]
      by_cases hpk' : p.1 = k'
      · rw [show (p.1 == k') = true by simp [hpk']]
        simp only [if_true]
        rw [ih]
      · rw [show (p.1 == k') = false by simp [hpk']]
        simp only [Bool.false_eq_true, if_false]
        exact ih

lemma getParam_setParam_self (ps : QueryParams) (k v : List Char) :
    getParam (setParam ps k v) k = some v := by
  induction ps with
  | nil =>
    unfold setParam getParam
    rw [List.find?_cons_of_pos _ (by simp)]
    rfl
  | cons p rest ih =>
    unfold setParam
    by_cases hpk : p.1 = k
    · rw [if_pos (by simp [hpk])]
      unfold getParam
      rw [List.find?_cons_of_pos _ (by simp)]
      rfl
    · rw [if_neg (by simp [hpk])]
      unfold getParam at ih ⊢
      rw [List.find?_cons_of_neg _ (by simp [hpk])]
      exact ih

lemma filter_setParam_other (ps : QueryParams) (k k' v : List Char)
    (hne : k' ≠ k) :
    (setParam ps k v).filter (fun p => p.1 == k')
      = ps.filter (fun p => p.1 == k') := by
  induction ps with
  | nil =>
    unfold setParam
    rw [List.filter_cons, show ((k, v).1 == k') = false by
      simp
      exact fun he => hne he.symm]
    simp
  | cons p rest ih =>
    unfold setParam
    by_cases hpk : p.1 = k
    · rw [if_pos (by simp [hpk])]
      rw [List.filter_cons, show ((k, v).1 == k') = false by
        simp
        exact fun he => hne he.symm]
      simp only [Bool.false_eq_true, if_false]
      rw [filter_deleteParam_other rest k k' hne]
      rw [List.filter_cons, show (p.1 == k') = false by
        rw [hpk]
        simp
        exact fun he => hne he.symm]
      simp
    · rw [if_neg (by simp [hpk])]
      rw [List.filter_cons, List.filter_cons]
      by_cases hpk' : p.1 = k'
      · rw [show (p.1 == k') = true by simp [hpk']]
        simp only [if_true]
        rw [ih]
      · rw [show (p.1 == k') = false by simp [hpk']]
        simp only [Bool.false_eq_true, if_false]
        exact ih

/-! ### Helper lemmas on the database operations -/

lemma memberExists_false_not_mem (ms : List MemberRow) (rid uid : List Char)
    (h : memberExists ms rid uid = false) :
    (rid, uid) ∉ ms.map (fun m => (m.room_id, m.user_id)) := by
  intro hmem
  rw [List.mem_map] at hmem
  obtain ⟨m, hm, hpair⟩ := hmem
  have h1 : m.room_id = rid := congrArg Prod.fst hpair
  have h2 : m.user_id = uid := congrArg Prod.snd hpair
  have hb : (m.room_id == rid && m.user_id == uid) = true := by simp [h1, h2]
  have hany : memberExists ms rid uid = true :=
    List.any_eq_true.2 ⟨m, hm, hb⟩
  rw [h] at hany
  exact Bool.false_ne_true hany

lemma insertMember_unique (ms : List MemberRow) (rid uid : List Char)
    (h : membersUnique ms) : membersUnique (insertMember ms rid uid) := by
  unfold insertMember
  cases hex : memberExists ms rid uid with
  | true => rw [if_pos rfl]; exact h
  | false =>
    rw [if_neg Bool.false_ne_true]
    unfold membersUnique at h ⊢
    rw [List.map_append]
    rw [List.nodup_append]
    refine ⟨h, List.nodup_singleton _, ?_⟩
    intro a ha hb
    simp only [List.map_cons, List.map_nil, List.mem_singleton] at hb
    rw [hb] at ha
    exact memberExists_false_not_mem ms rid uid hex ha

lemma join_room_by_key_membersUnique (db : DBState) (uid k : List Char)
    (h : membersUnique db.members) :
    membersUnique ((join_room_by_key db uid k).2).members := by
  unfold join_room_by_key
  cases hl : lookupRoomId db.rooms k with
  | none => exact h
  | some rid => exact insertMember_unique _ _ _ h

lemma createRoomDb_membersUnique (db : DBState) (key freshId uid : List Char)
    (h : membersUnique db.members) :
    membersUnique ((createRoomDb db key freshId uid).2).members := by
  unfold createRoomDb
  cases hc : db.rooms.any (fun r => r.key == key) with
  | true => rw [if_pos rfl]; exact h
  | false =>
    rw [if_neg Bool.false_ne_true]
    exact insertMember_unique _ _ _ h

lemma applyDirOp_membersUnique (db : DBState) (op : DirOp)
    (h : membersUnique db.members) :
    membersUnique ((applyDirOp db op).members) := by
  cases op with
  | create bytes freshId uid => exact createRoomDb_membersUnique _ _ _ _ h
  | joinByKey uid rawKey =>
    simp only [applyDirOp]
    by_cases hk : jsToUpperCase (jsTrim rawKey) = []
    · rw [if_pos hk]; exact h
    · rw [if_neg hk]
      exact join_room_by_key_membersUnique _ _ _ h

lemma foldl_applyDirOp_membersUnique (ops : List DirOp) :
    ∀ db : DBState, membersUnique db.members
      → membersUnique ((ops.foldl applyDirOp db).members) := by
  induction ops with
  | nil => intro db h; exact h
  | cons op t ih => intro db h; exact ih _ (applyDirOp_membersUnique db op h)

lemma lookupRoomId_after_create (db : DBState) (key freshId uid : List Char)
    (hnc : db.rooms.any (fun r => r.key == key) = false) :
    lookupRoomId ((createRoomDb db key freshId uid).2).rooms key = some freshId := by
  unfold createRoomDb
  rw [if_neg (by simp [hnc])]
  unfold lookupRoomId
  rw [List.find?_append, find?_none_of_any_false _ _ hnc]
  rw [List.find?_cons_of_pos _ (by simp)]
  rfl

/-! ### Claim theorems -/

/-- Claim C5: the color function is pure and deterministic and equals the
reference definition: for every display-name string, `pickColor` computes
the 32-bit wrapping rolling hash `hash = hash * 31 + charCode` over the
characters, takes its absolute value modulo the fixed 5-color palette, and
returns the same color on every invocation; the code form
`(hash << 5) - hash` followed by `|0` equals `hash * 31` modulo `2 ^ 32`. -/
theorem c5_pickColor_matches_reference :
    (∀ s : List Char, pickColor s = pickColorSpec s)
    ∧ ∀ (h : Int) (c : Nat), hashStep h c = int32 (h * 31 + c) := by
  constructor
  · intro s
    unfold pickColor pickColorSpec
    rw [jsHash_eq_specHash]
  · exact hashStep_eq_spec

/-- Claim C7: after a session set up by the session effect is torn down
(listeners detached, transport handle released), any subsequently
delivered status or awareness event produces no observable change to the
status or participant-list state. -/
theorem c7_teardown_silences_events :
    ∀ (p : ProviderConn) (localUser : UserInfo) (ev : List Char)
      (states : List (Option UserInfo)) (ui : UiState),
      deliverStatus (teardownSession (setupSession p localUser)) ev ui = ui
      ∧ deliverAwareness (teardownSession (setupSession p localUser)) states ui = ui
      ∧ (teardownSession (setupSession p localUser)).statusHandlers = []
      ∧ (teardownSession (setupSession p localUser)).awarenessHandlers = []
      ∧ (teardownSession (setupSession p localUser)).destroyed = true := by
  intro p localUser ev states ui
  exact ⟨rfl, rfl, rfl, rfl, rfl⟩

/-- Claim C6: whenever the token is empty or no room id is selected, no
session is constructed: the provider memo yields null and the session
effect reports status `disconnected` with an empty participant list. -/
theorem c6_no_session_without_token_or_room :
    ∀ (token roomId : List Char) (localUser : UserInfo) (ui : UiState),
      token = [] ∨ roomId = [] →
      mkProvider token roomId = none
      ∧ sessionEffectInit (mkProvider token roomId) localUser ui
          = ({ status := jstr "disconnected", users := [] }, none) := by
  intro token roomId localUser ui h
  have hm : mkProvider token roomId = none := by
    unfold mkProvider
    rcases h with h | h <;> simp [h]
  exact ⟨hm, by rw [hm]; rfl⟩

/-- Witness for C6 at a concrete input: an empty token with a selected
room id yields no provider, status `disconnected`, no participants. -/
theorem c6_witness :
    mkProvider [] (jstr "room-1") = none
    ∧ sessionEffectInit (mkProvider [] (jstr "room-1"))
        { name := jstr "User 123", color := jstr "#2b6cb0" }
        { status := jstr "connecting", users := [] }
        = ({ status := jstr "disconnected", users := [] }, none) :=
  c6_no_session_without_token_or_room [] (jstr "room-1")
    { name := jstr "User 123", color := jstr "#2b6cb0" }
    { status := jstr "connecting", users := [] } (Or.inl rfl)

/-- Claim C3: for every key that matches no existing room, the privileged
join RPC fails with RoomNotFound and the membership table is unchanged. -/
theorem c3_unknown_key_room_not_found :
    ∀ (db : DBState) (uid p_key : List Char),
      db.rooms.any (fun r => r.key == p_key) = false →
      join_room_by_key db uid p_key = (Except.error JoinError.roomNotFound, db)
      ∧ ((join_room_by_key db uid p_key).2).members = db.members := by
  intro db uid p_key h
  have hl : lookupRoomId db.rooms p_key = none := by
    unfold lookupRoomId
    rw [find?_none_of_any_false _ _ h]
    rfl
  have hj : join_room_by_key db uid p_key
      = (Except.error JoinError.roomNotFound, db) := by
    unfold join_room_by_key
    rw [hl]
  exact ⟨hj, by rw [hj]⟩

/-- The database used by the C3 witness: one room with key ABC123. -/
def c3DbW : DBState :=
  { rooms := [{ id := jstr "room-1", key := jstr "ABC123", owner_id := jstr "u1" }],
    members := [{ room_id := jstr "room-1", user_id := jstr "u1", role := jstr "editor" }] }

/-- Witness for C3 at a concrete input: joining with the unknown key
ZZZZZZ fails and leaves the membership rows untouched. -/
theorem c3_witness :
    join_room_by_key c3DbW (jstr "u2") (jstr "ZZZZZZ")
      = (Except.error JoinError.roomNotFound, c3DbW)
    ∧ ((join_room_by_key c3DbW (jstr "u2") (jstr "ZZZZZZ")).2).members = c3DbW.members :=
  c3_unknown_key_room_not_found c3DbW (jstr "u2") (jstr "ZZZZZZ") (by decide)

/-- Claim C4: membership insertion is idempotent: inserting a membership
row whose (room id, user id) pair already exists is a no-op, and after any
sequence of createRoom and joinByKey operations the membership table
contains at most one row per (room, user) pair. -/
theorem c4_membership_idempotent_unique :
    (∀ (ms : List MemberRow) (rid uid : List Char),
      memberExists ms rid uid = true → insertMember ms rid uid = ms)
    ∧ ∀ (db : DBState) (ops : List DirOp),
        membersUnique db.members
        → membersUnique ((ops.foldl applyDirOp db).members) := by
  constructor
  · intro ms rid uid h
    unfold insertMember
    rw [if_pos h]
  · intro db ops h
    exact foldl_applyDirOp_membersUnique ops db h

/-- Witness for C4 at concrete inputs: re-inserting an existing member row
is a no-op, and a create followed by two joins with the same key keeps the
membership table duplicate-free. -/
theorem c4_witness :
    insertMember [{ room_id := jstr "room-1", user_id := jstr "u1", role := jstr "editor" }]
        (jstr "room-1") (jstr "u1")
      = [{ room_id := jstr "room-1", user_id := jstr "u1", role := jstr "editor" }]
    ∧ membersUnique
        (([DirOp.create [0, 0, 0, 0, 0, 0] (jstr "room-1") (jstr "u1"),
           DirOp.joinByKey (jstr "u2") (jstr " 000000 "),
           DirOp.joinByKey (jstr "u2") (jstr "000000")].foldl applyDirOp
            { rooms := [], members := [] }).members) :=
  ⟨c4_membership_idempotent_unique.1 _ _ _ (by decide),
   c4_membership_idempotent_unique.2 { rooms := [], members := [] } _
     (by unfold membersUnique; decide)⟩

/-- Claim C10: `pickColor` is total over all strings: the computed palette
index is always within bounds of the 5-element palette, so `pickColor`
always returns one of the five palette colors, with the empty string
mapped to the first one; and `generateRoomKey` always returns a
6-character string over the uppercase base-36 alphabet, so the
trim-and-uppercase normalization of `joinRoomByKey` is the identity on
every generated key. -/
theorem c10_pickColor_total_and_key_wellformed :
    (∀ s : List Char, pickColor s ∈ userColors)
    ∧ pickColor [] = jstr "#2b6cb0"
    ∧ ∀ bytes : List Nat, bytes.length = 6 →
        (generateRoomKey bytes).length = 6
        ∧ (generateRoomKey bytes).all isUpperBase36 = true
        ∧ jsToUpperCase (jsTrim (generateRoomKey bytes)) = generateRoomKey bytes := by
  refine ⟨?_, by decide, ?_⟩
  · intro s
    have hlt : (jsHash s).natAbs % userColors.length < userColors.length :=
      Nat.mod_lt _ (by decide)
    have hmem : ∀ n : Fin 5, userColors.getD n.val [] ∈ userColors := by decide
    unfold pickColor
    exact hmem ⟨(jsHash s).natAbs % userColors.length, hlt⟩
  · intro bytes hlen
    refine ⟨?_, ?_, ?_⟩
    · unfold generateRoomKey jsToUpperCase
      rw [List.length_map, List.length_map, hlen]
    · rw [List.all_eq_true]
      intro c hc
      exact (generateRoomKey_char_facts hc).2.2
    · rw [jsTrim_eq_self (fun c hc => (generateRoomKey_char_facts hc).1)]
      unfold jsToUpperCase
      calc (generateRoomKey bytes).map jsToUpper
          = (generateRoomKey bytes).map id :=
            List.map_congr_left (fun c hc => (generateRoomKey_char_facts hc).2.1)
        _ = generateRoomKey bytes := List.map_id _

/-- Witness for C10 at concrete inputs. -/
theorem c10_witness :
    pickColor (jstr "alice") ∈ userColors
    ∧ pickColor [] = jstr "#2b6cb0"
    ∧ ((generateRoomKey [200, 11, 52, 33, 4, 255]).length = 6
       ∧ (generateRoomKey [200, 11, 52, 33, 4, 255]).all isUpperBase36 = true
       ∧ jsToUpperCase (jsTrim (generateRoomKey [200, 11, 52, 33, 4, 255]))
           = generateRoomKey [200, 11, 52, 33, 4, 255]) :=
  ⟨c10_pickColor_total_and_key_wellformed.1 (jstr "alice"),
   c10_pickColor_total_and_key_wellformed.2.1,
   c10_pickColor_total_and_key_wellformed.2.2 [200, 11, 52, 33, 4, 255] (by decide)⟩

/-- Claim C1: `joinRoomByKey` first normalizes its input by trimming
surrounding whitespace and uppercasing before the privileged lookup, so
for any key produced by `generateRoomKey` and registered by createRoom,
calling `joinRoomByKey` with that key in any letter case and with
surrounding whitespace normalizes to the created key and resolves to the
same room id as the one the creator received. -/
theorem c1_normalized_key_resolves_to_creator_room :
    ∀ (db : DBState) (bytes : List Nat) (freshId owner u2 : List Char)
      (ws1 ws2 v : List Char) (st : AppState),
      bytes ≠ [] →
      db.rooms.any (fun r => r.key == generateRoomKey bytes) = false →
      (∀ c ∈ ws1, jsIsWhitespace c = true) →
      (∀ c ∈ ws2, jsIsWhitespace c = true) →
      jsToUpperCase v = generateRoomKey bytes →
      st.db = (createRoomDb db (generateRoomKey bytes) freshId owner).2 →
      jsToUpperCase (jsTrim (ws1 ++ v ++ ws2)) = generateRoomKey bytes
      ∧ (joinRoomByKey (some u2) (ws1 ++ v ++ ws2) st).roomId = freshId := by
  intro db bytes freshId owner u2 ws1 ws2 v st hbne hnc hws1 hws2 hv hst
  have hKne : generateRoomKey bytes ≠ [] := by
    unfold generateRoomKey jsToUpperCase
    intro hc
    simp only [List.map_eq_nil_iff] at hc
    exact hbne hc
  have hvnws : ∀ c ∈ v, jsIsWhitespace c = false :=
    upper_variant_not_ws (fun c hc => (generateRoomKey_char_facts hc).1) hv
  have hvne : v ≠ [] := by
    intro hc
    rw [hc] at hv
    exact hKne hv.symm
  have htrim : jsTrim (ws1 ++ v ++ ws2) = v := jsTrim_sandwich hws1 hws2 hvnws hvne
  have hnorm : jsToUpperCase (jsTrim (ws1 ++ v ++ ws2)) = generateRoomKey bytes := by
    rw [htrim, hv]
  refine ⟨hnorm, ?_⟩
  have hjoin : join_room_by_key st.db u2 (generateRoomKey bytes)
      = (Except.ok freshId,
         { st.db with members := insertMember st.db.members freshId u2 }) := by
    unfold join_room_by_key
    rw [hst, lookupRoomId_after_create db (generateRoomKey bytes) freshId owner hnc]
  simp only [joinRoomByKey]
  rw [hnorm, if_neg hKne, hjoin]

/-- The post-creation application state used by the C1 witness. -/
def c1StateW : AppState :=
  { db := (createRoomDb { rooms := [], members := [] }
      (generateRoomKey [10, 11, 12, 33, 34, 35]) (jstr "room-1") (jstr "u1")).2,
    roomId := jstr "room-1", roomKeyInput := [], inviteInput := [],
    inviteKey := [], roomError := [], roomLoading := false,
    url := { base := jstr "https://app.example/",
             params := [(jstr "room", jstr "room-1")] } }

/-- Witness for C1 at a concrete input: the creator registers the
generated key ABCXYZ; a second user joining with the lower-cased,
whitespace-padded variant resolves to the same room id. -/
theorem c1_witness :
    jsToUpperCase (jsTrim (jstr " " ++ jstr "abcXyz" ++ jstr " "))
        = generateRoomKey [10, 11, 12, 33, 34, 35]
    ∧ (joinRoomByKey (some (jstr "u2")) (jstr " " ++ jstr "abcXyz" ++ jstr " ")
        c1StateW).roomId = jstr "room-1" :=
  c1_normalized_key_resolves_to_creator_room { rooms := [], members := [] }
    [10, 11, 12, 33, 34, 35] (jstr "room-1") (jstr "u1") (jstr "u2")
    (jstr " ") (jstr " ") (jstr "abcXyz") c1StateW
    (by decide) (by decide) (by decide) (by decide) (by decide) rfl

lemma getParam_updateRoomInUrl_invite (rid : List Char) (u : Url) :
    getParam (updateRoomInUrl rid u).params (jstr "invite") = none := by
  unfold updateRoomInUrl
  exact getParam_deleteParam_self _ _

/-- Claim C9: on every room selection change the address is rewritten so
that the `room` parameter equals the new room id, the legacy `doc`
parameter and any `invite` parameter are removed, the rewrite goes through
a history replacement that creates no new navigable entry, and every other
part of the address (the part outside the query string, and every other
query parameter) is unchanged. -/
theorem c9_updateRoomInUrl_rewrites_address :
    ∀ (h : BrowserHistory) (rid : List Char), rid ≠ [] →
      getParam (updateRoomInUrlHistory rid h).current.params (jstr "room") = some rid
      ∧ (updateRoomInUrlHistory rid h).current.params.filter
          (fun p => p.1 == jstr "doc") = []
      ∧ (updateRoomInUrlHistory rid h).current.params.filter
          (fun p => p.1 == jstr "invite") = []
      ∧ (updateRoomInUrlHistory rid h).current.base = h.current.base
      ∧ (updateRoomInUrlHistory rid h).entryCount = h.entryCount
      ∧ ∀ k : List Char, k ≠ jstr "room" → k ≠ jstr "doc" → k ≠ jstr "invite" →
          (updateRoomInUrlHistory rid h).current.params.filter (fun p => p.1 == k)
            = h.current.params.filter (fun p => p.1 == k) := by
  intro h rid hrid
  have hps : (updateRoomInUrlHistory rid h).current.params
      = deleteParam (deleteParam (setParam h.current.params (jstr "room") rid)
          (jstr "doc")) (jstr "invite") := by
    unfold updateRoomInUrlHistory replaceState updateRoomInUrl
    rw [if_neg hrid]
  refine ⟨?_, ?_, ?_, rfl, rfl, ?_⟩
  · rw [hps,
        getParam_deleteParam_other _ _ _ (by decide),
        getParam_deleteParam_other _ _ _ (by decide),
        getParam_setParam_self]
  · rw [hps, filter_deleteParam_other _ _ _ (by decide), filter_deleteParam_self]
  · rw [hps, filter_deleteParam_self]
  · intro k hk1 hk2 hk3
    rw [hps,
        filter_deleteParam_other _ _ _ hk3,
        filter_deleteParam_other _ _ _ hk2,
        filter_setParam_other _ _ _ _ hk1]

/-- The browser history used by the C9 witness: a legacy `doc` parameter,
an `invite` parameter and an unrelated parameter `x`. -/
def c9HistW : BrowserHistory :=
  { current :=
      { base := jstr "https://app.example/",
        params := [(jstr "doc", jstr "legacy-1"), (jstr "invite", jstr "ABC123"),
                   (jstr "x", jstr "1")] },
    entryCount := 3 }

/-- Witness for C9 at a concrete input. -/
theorem c9_witness :
    getParam (updateRoomInUrlHistory (jstr "room-77") c9HistW).current.params
        (jstr "room") = some (jstr "room-77")
    ∧ (updateRoomInUrlHistory (jstr "room-77") c9HistW).current.params.filter
        (fun p => p.1 == jstr "doc") = []
    ∧ (updateRoomInUrlHistory (jstr "room-77") c9HistW).current.params.filter
        (fun p => p.1 == jstr "invite") = []
    ∧ (updateRoomInUrlHistory (jstr "room-77") c9HistW).current.base
        = c9HistW.current.base
    ∧ (updateRoomInUrlHistory (jstr "room-77") c9HistW).entryCount
        = c9HistW.entryCount
    ∧ (updateRoomInUrlHistory (jstr "room-77") c9HistW).current.params.filter
        (fun p => p.1 == jstr "x")
        = c9HistW.current.params.filter (fun p => p.1 == jstr "x") := by
  have h := c9_updateRoomInUrl_rewrites_address c9HistW (jstr "room-77") (by decide)
  exact ⟨h.1, h.2.1, h.2.2.1, h.2.2.2.1, h.2.2.2.2.1,
    h.2.2.2.2.2 (jstr "x") (by decide) (by decide) (by decide)⟩

/-- The application state used by the C2 counterexample: a stored invite
key `XYZ987` carried by the address, a signed-in principal, and a database
in which no room has that key, so the auto-join attempt fails. -/
def c2StartW : AppState :=
  { db := { rooms := [], members := [] }, roomId := [], roomKeyInput := [],
    inviteInput := [], inviteKey := jstr "XYZ987", roomError := [],
    roomLoading := false,
    url := { base := jstr "https://app.example/",
             params := [(jstr "invite", jstr "XYZ987")] } }

/-- Counterexample to claim C2 as stated: the auto-join attempt for the
stored invite key `XYZ987` resolves with failure (RoomNotFound), yet the
`invite` parameter is still present in the address afterwards — the code
clears it only on the success path, not unconditionally. -/
theorem c2_counterexample_invite_retained_on_failure :
    (inviteAutoJoinEffect (some (jstr "u1")) c2StartW).roomError = jstr "room-not-found"
    ∧ getParam (inviteAutoJoinEffect (some (jstr "u1")) c2StartW).url.params
        (jstr "invite") = some (jstr "XYZ987")
    ∧ ¬ getParam (inviteAutoJoinEffect (some (jstr "u1")) c2StartW).url.params
        (jstr "invite") = none := by decide

/-- Claim C2 (amended): after the automatic invite join attempt succeeds,
the `invite` parameter is absent from the address and the stored invite
key is cleared, so no further auto-join fires in this load; after a failed
attempt, the address and the stored invite key are unchanged, so the
invite parameter survives and a reload re-attempts the join. -/
theorem c2_invite_cleared_only_on_success :
    ∀ (uid : List Char) (st : AppState) (rid : List Char),
      st.inviteKey ≠ [] →
      ((jsToUpperCase (jsTrim st.inviteKey) ≠ [] →
        lookupRoomId st.db.rooms (jsToUpperCase (jsTrim st.inviteKey)) = some rid →
        getParam (inviteAutoJoinEffect (some uid) st).url.params (jstr "invite") = none
        ∧ (inviteAutoJoinEffect (some uid) st).inviteKey = [])
      ∧ (jsToUpperCase (jsTrim st.inviteKey) ≠ [] →
        lookupRoomId st.db.rooms (jsToUpperCase (jsTrim st.inviteKey)) = none →
        (inviteAutoJoinEffect (some uid) st).url = st.url
        ∧ (inviteAutoJoinEffect (some uid) st).inviteKey = st.inviteKey)) := by
  intro uid st rid hne
  have heff : inviteAutoJoinEffect (some uid) st
      = joinRoomByKey (some uid) st.inviteKey st := by
    unfold inviteAutoJoinEffect
    rw [if_neg hne]
  constructor
  · intro htne hlk
    have hj : join_room_by_key st.db uid (jsToUpperCase (jsTrim st.inviteKey))
        = (Except.ok rid, { st.db with members := insertMember st.db.members rid uid }) := by
      unfold join_room_by_key
      rw [hlk]
    rw [heff]
    simp only [joinRoomByKey]
    rw [if_neg htne, hj]
    exact ⟨getParam_updateRoomInUrl_invite rid st.url, rfl⟩
  · intro htne hlk
    have hj : join_room_by_key st.db uid (jsToUpperCase (jsTrim st.inviteKey))
        = (Except.error JoinError.roomNotFound, st.db) := by
      unfold join_room_by_key
      rw [hlk]
    rw [heff]
    simp only [joinRoomByKey]
    rw [if_neg htne, hj]
    exact ⟨rfl, rfl⟩

/-- The application state used by the C2 witness: the stored invite key
`XYZ987` matches an existing room, so the auto-join attempt succeeds. -/
def c2SuccessW : AppState :=
  { db := { rooms := [{ id := jstr "room-9", key := jstr "XYZ987",
                        owner_id := jstr "u1" }],
            members := [] },
    roomId := [], roomKeyInput := [], inviteInput := [],
    inviteKey := jstr "XYZ987", roomError := [], roomLoading := false,
    url := { base := jstr "https://app.example/",
             params := [(jstr "invite", jstr "XYZ987")] } }

/-- Witness for the amended C2 at a concrete input: after the successful
auto-join the invite parameter is gone and the stored key cleared. -/
theorem c2_witness :
    getParam (inviteAutoJoinEffect (some (jstr "u2")) c2SuccessW).url.params
        (jstr "invite") = none
    ∧ (inviteAutoJoinEffect (some (jstr "u2")) c2SuccessW).inviteKey = [] :=
  (c2_invite_cleared_only_on_success (jstr "u2") c2SuccessW (jstr "room-9")
    (by decide)).1 (by decide) (by decide)

/-- The application state used by the C8 counterexample: a blank invite
input. -/
def c8BlankW : AppState :=
  { db := { rooms := [], members := [] }, roomId := [], roomKeyInput := [],
    inviteInput := jstr "   ", inviteKey := [], roomError := [],
    roomLoading := false,
    url := { base := jstr "https://app.example/", params := [] } }

/-- Counterexample to claim C8 as stated: for a blank input text no key is
ever passed to `joinRoomByKey` — the handler returns early with the
validation message — so the result is not delegated for every input. -/
theorem c8_counterexample_blank_input_not_delegated :
    handleJoinByInviteKeySent (fun _ => none) (jstr "   ") = none
    ∧ handleJoinByInvite (fun _ => none) (some (jstr "u1")) c8BlankW
        = { c8BlankW with roomError := jstr "Enter an invite link or key" } := by
  exact ⟨rfl, rfl⟩

/-- Claim C8 (amended): for every input text whose trim is non-blank,
`handleJoinByInvite` parses the text as a URL and extracts the `invite`
query value; if parsing fails, or the parameter is absent, or its value is
the empty string, the trimmed text itself is used as the key; the
resulting key is delegated to `joinRoomByKey`. Blank input instead
produces a validation error without invoking `joinRoomByKey`. -/
theorem c8_invite_key_extraction :
    ∀ (parseUrl : List Char → Option Url) (session : Option (List Char))
      (st : AppState),
      jsTrim st.inviteInput ≠ [] →
      handleJoinByInvite parseUrl session st
        = joinRoomByKey session (inviteKeyValue parseUrl (jsTrim st.inviteInput)) st
      ∧ handleJoinByInviteKeySent parseUrl st.inviteInput
          = some (inviteKeyValue parseUrl (jsTrim st.inviteInput))
      ∧ (parseUrl (jsTrim st.inviteInput) = none →
          inviteKeyValue parseUrl (jsTrim st.inviteInput) = jsTrim st.inviteInput)
      ∧ (∀ u : Url, parseUrl (jsTrim st.inviteInput) = some u →
          getParam u.params (jstr "invite") = none →
          inviteKeyValue parseUrl (jsTrim st.inviteInput) = jsTrim st.inviteInput)
      ∧ (∀ (u : Url) (v : List Char), parseUrl (jsTrim st.inviteInput) = some u →
          getParam u.params (jstr "invite") = some v → v ≠ [] →
          inviteKeyValue parseUrl (jsTrim st.inviteInput) = v) := by
  intro parseUrl session st hne
  refine ⟨?_, ?_, ?_, ?_, ?_⟩
  · unfold handleJoinByInvite
    rw [if_neg hne]
  · unfold handleJoinByInviteKeySent
    rw [if_neg hne]
  · intro hp
    unfold inviteKeyValue
    rw [hp]
  · intro u hp hg
    unfold inviteKeyValue
    rw [hp]
    show (match getParam u.params (jstr "invite") with
          | some v => if v = [] then jsTrim st.inviteInput else v
          | none => jsTrim st.inviteInput) = jsTrim st.inviteInput
    rw [hg]
  · intro u v hp hg hv
    unfold inviteKeyValue
    rw [hp]
    show (match getParam u.params (jstr "invite") with
          | some w => if w = [] then jsTrim st.inviteInput else w
          | none => jsTrim st.inviteInput) = v
    rw [hg]
    show (if v = [] then jsTrim st.inviteInput else v) = v
    rw [if_neg hv]

/-- The URL parser used by the C8 witness: it recognizes exactly one
invite link. -/
def c8ParseUrlW : List Char → Option Url := fun l =>
  if l = jstr "https://app.example/?invite=ABC123" then
    some { base := jstr "https://app.example/",
           params := [(jstr "invite", jstr "ABC123")] }
  else none

/-- The application state used by the C8 witness: the invite input is a
whitespace-padded invite link. -/
def c8InviteW : AppState :=
  { db := { rooms := [], members := [] }, roomId := [], roomKeyInput := [],
    inviteInput := jstr " https://app.example/?invite=ABC123 ", inviteKey := [],
    roomError := [], roomLoading := false,
    url := { base := jstr "https://app.example/", params := [] } }

/-- Witness for the amended C8 at a concrete input: the key extracted from
the pasted invite link and delegated to `joinRoomByKey` is ABC123. -/
theorem c8_witness :
    handleJoinByInviteKeySent c8ParseUrlW c8InviteW.inviteInput
      = some (jstr "ABC123") := by
  have h := c8_invite_key_extraction c8ParseUrlW (some (jstr "u1")) c8InviteW
    (by decide)
  rw [h.2.1]
  decide
